import Mathlib

/-!
Verification development for the langdock-proxy streaming server
(`src/server.js`).  The definitions below are a shallow embedding of the
streaming code paths: the line reassembler of `GET /assistant-stream`
(carry buffer split on CR-optional newlines, `server.js` lines 344-369),
the SSE session event machine (heartbeat interval, upstream
data/end/error handlers, client close handler), the pre-flight
validation of the GET route, and the outbound request construction of
the POST routes.  The event machine encodes the single-threaded
JavaScript execution model: each callback runs to completion, so each
`res.write` of the source appends one whole frame to the outbound
stream.
-/

namespace LangdockProxy

/-! ### JavaScript string primitives used by the handlers -/

/-- Character class removed by JS `String.prototype.trim`: the ASCII
blanks, NBSP, BOM, the Unicode Zs spaces and the line separators
U+2028/U+2029. -/
def isJsWs (c : Char) : Bool :=
  c = ' ' || c = '\t' || c = '\n' || c = '\u000b' || c = '\u000c' || c = '\r' ||
  c = ' ' || c = '﻿' || c = ' ' ||
  (0x2000 ≤ c.toNat && c.toNat ≤ 0x200a) ||
  c = ' ' || c = ' ' || c = ' ' || c = ' ' || c = '　'

/-- JS `s.trim()` on a character list: drop JS whitespace from both
ends. -/
def jsTrim (l : List Char) : List Char :=
  ((l.dropWhile isJsWs).reverse.dropWhile isJsWs).reverse

/-- Core of the reassembly loop of the `data` handler:
`(carry + text).split(/\r?\n/)` followed by `carry = parts.pop()`.
Returns the delimiter-terminated segments and the trailing carry.  The
regex scans left to right and greedily takes `\r\n` as one delimiter,
else a bare `\n`; a `\r` not followed by `\n` is ordinary text. -/
def splitCL : List Char → List (List Char) × List Char
  | [] => ([], [])
  | '\r' :: '\n' :: rest =>
      let r := splitCL rest
      ([] :: r.1, r.2)
  | '\n' :: rest =>
      let r := splitCL rest
      ([] :: r.1, r.2)
  | c :: rest =>
      match splitCL rest with
      | ([], carry) => ([], c :: carry)
      | (l :: ls, carry) => ((c :: l) :: ls, carry)

/-- JS `s.split(/\r?\n/)`: every segment, the trailing one included. -/
def splitRN (s : List Char) : List (List Char) :=
  (splitCL s).1 ++ [(splitCL s).2]

/-- Unfolding equation for `splitCL` in the ordinary-character case. -/
theorem splitCL_cons (c : Char) (rest : List Char) (h2 : c ≠ '\n')
    (h1 : ∀ r, ¬(c = '\r' ∧ rest = '\n' :: r)) :
    splitCL (c :: rest) =
      match splitCL rest with
      | ([], carry) => ([], c :: carry)
      | (l :: ls, carry) => ((c :: l) :: ls, carry) := by
  rw [splitCL.eq_def]
  split
  · rename_i h; exact absurd h (List.cons_ne_nil c rest)
  · rename_i r h
    injection h with hc hrest
    exact absurd ⟨hc, hrest⟩ (h1 r)
  · rename_i r h
    injection h with hc _
    exact absurd hc h2
  · rename_i x c2 rest2 hx1 hx2 heq
    injection heq with hc hrest
    subst hc; subst hrest; rfl

/-- The carry never contains a line delimiter. -/
theorem splitCL_carry_no_newline (s : List Char) : '\n' ∉ (splitCL s).2 := by
  induction s using splitCL.induct with
  | case1 => simp [splitCL]
  | case2 rest ih => simpa [splitCL] using ih
  | case3 rest ih => simpa [splitCL] using ih
  | case4 c rest h1 h2 carry heq ih =>
      rw [splitCL_cons c rest h2 (fun r hr => h1 r hr.1 hr.2), heq]
      rw [heq] at ih
      intro hmem
      rcases List.mem_cons.mp hmem with h | h
      · exact h2 h.symm
      · exact ih h
  | case5 c rest h1 h2 l ls carry heq ih =>
      rw [splitCL_cons c rest h2 (fun r hr => h1 r hr.1 hr.2), heq]
      rw [heq] at ih
      exact ih

/-- When no segment is complete, the carry is the whole input. -/
theorem splitCL_lines_nil {s : List Char} (h : (splitCL s).1 = []) :
    (splitCL s).2 = s := by
  induction s using splitCL.induct with
  | case1 => simp [splitCL]
  | case2 rest ih => simp [splitCL] at h
  | case3 rest ih => simp [splitCL] at h
  | case4 c rest h1 h2 carry heq ih =>
      have h0 : (splitCL rest).1 = [] := by rw [heq]
      have hcarry : (splitCL rest).2 = rest := ih h0
      rw [heq] at hcarry
      rw [splitCL_cons c rest h2 (fun r hr => h1 r hr.1 hr.2), heq]
      simp only at hcarry ⊢
      rw [hcarry]
  | case5 c rest h1 h2 l ls carry heq ih =>
      rw [splitCL_cons c rest h2 (fun r hr => h1 r hr.1 hr.2), heq] at h
      simp at h

/-- Delimiter-free input produces no complete segment. -/
theorem splitCL_no_newline {s : List Char} (h : '\n' ∉ s) :
    splitCL s = ([], s) := by
  induction s using splitCL.induct with
  | case1 => rfl
  | case2 rest ih => exact absurd (by simp) h
  | case3 rest ih => exact absurd (by simp) h
  | case4 c rest h1 h2 carry heq ih =>
      have hrest : '\n' ∉ rest := fun hm => h (List.mem_cons_of_mem c hm)
      have := ih hrest
      rw [heq] at this
      injection this with ha hb
      rw [splitCL_cons c rest h2 (fun r hr => h1 r hr.1 hr.2), heq, hb]
  | case5 c rest h1 h2 l ls carry heq ih =>
      have hrest : '\n' ∉ rest := fun hm => h (List.mem_cons_of_mem c hm)
      have := ih hrest
      rw [heq] at this
      injection this with ha _
      exact absurd ha (List.cons_ne_nil l ls)

/-- Splitting a concatenation: the segments of `s` that are already
delimiter-terminated are final; the carry of `s` is re-examined together
with `t`. -/
theorem splitCL_append (s t : List Char) :
    splitCL (s ++ t) =
      ((splitCL s).1 ++ (splitCL ((splitCL s).2 ++ t)).1,
        (splitCL ((splitCL s).2 ++ t)).2) := by
  induction s using splitCL.induct generalizing t with
  | case1 => simp [splitCL]
  | case2 rest ih =>
      simp only [List.cons_append, splitCL, List.append_eq]
      rw [ih]
  | case3 rest ih =>
      simp only [List.cons_append, splitCL, List.append_eq]
      rw [ih]
  | case4 c rest h1 h2 carry heq ih =>
      have h0 : (splitCL rest).1 = [] := by rw [heq]
      have hcarry : carry = rest := by
        have hh := splitCL_lines_nil h0
        rw [heq] at hh
        exact hh
      rw [splitCL_cons c rest h2 (fun r hr => h1 r hr.1 hr.2), heq]
      subst hcarry
      simp [List.cons_append]
  | case5 c rest h1 h2 l ls carry heq ih =>
      have hrestne : rest ≠ [] := by
        intro hre; rw [hre] at heq; simp [splitCL] at heq
      have hgen : ∀ r, ¬(c = '\r' ∧ rest ++ t = '\n' :: r) := by
        rintro r ⟨hc, hr⟩
        cases rest with
        | nil => exact hrestne rfl
        | cons d ds =>
            simp only [List.cons_append] at hr
            injection hr with hd hds
            exact h1 ds hc (by rw [hd])
      rw [List.cons_append,
        splitCL_cons c (rest ++ t) h2 hgen,
        ih,
        splitCL_cons c rest h2 (fun r hr => h1 r hr.1 hr.2),
        heq]
      simp

/-! ### The reassembly fold over a sequence of chunks

`rawFeed` is one firing of the `data` handler at the level of raw
segments: the complete segments are appended to the output, the last
segment becomes the new carry.  `emitLines` is the emission loop around
it (`const line = lineRaw.trim(); if (!line) continue;`). -/

/-- One `data` event at the raw segment level. -/
def rawFeed (st : List (List Char) × List Char) (chunk : List Char) :
    List (List Char) × List Char :=
  let r := splitCL (st.2 ++ chunk)
  (st.1 ++ r.1, r.2)

/-- Trim each complete segment and drop the ones that are empty after
trimming (JS string truthiness). -/
def emitLines (ls : List (List Char)) : List (List Char) :=
  (ls.map jsTrim).filter (fun l => !l.isEmpty)

/-- One `data` event at the level of emitted SSE payloads. -/
def sseFeed (st : List (List Char) × List Char) (chunk : List Char) :
    List (List Char) × List Char :=
  let r := splitCL (st.2 ++ chunk)
  (st.1 ++ emitLines r.1, r.2)

/-- The `end` handler flush: `if (carry.trim()) res.write(...)`. -/
def sseFlush (carry : List Char) : List (List Char) :=
  if (jsTrim carry).isEmpty then [] else [jsTrim carry]

/-- All SSE data payloads produced for a chunk sequence, final flush
included. -/
def reframeLines (chunks : List (List Char)) : List (List Char) :=
  let r := chunks.foldl sseFeed ([], [])
  r.1 ++ sseFlush r.2

theorem rawFeed_general (chunks : List (List Char)) (L : List (List Char))
    (C : List Char) (hC : (splitCL C).1 = []) :
    chunks.foldl rawFeed (L, C) =
      (L ++ (splitCL (C ++ chunks.flatten)).1, (splitCL (C ++ chunks.flatten)).2) := by
  induction chunks generalizing L C with
  | nil =>
      have h2 := splitCL_lines_nil hC
      simp [List.foldl, hC, h2]
  | cons c cs ih =>
      have hC2 : (splitCL (splitCL (C ++ c)).2).1 = [] := by
        rw [splitCL_no_newline (splitCL_carry_no_newline (C ++ c))]
      simp only [List.foldl, rawFeed, List.flatten_cons]
      rw [ih _ _ hC2]
      rw [show C ++ (c ++ cs.flatten) = (C ++ c) ++ cs.flatten by simp,
        splitCL_append (C ++ c) cs.flatten]
      simp

/-- Feeding any chunking of a byte sequence yields exactly the
delimiter-terminated segments of the whole sequence, with the undlimited
remainder as carry. -/
theorem rawFold_eq (chunks : List (List Char)) :
    chunks.foldl rawFeed ([], []) = splitCL chunks.flatten := by
  have := rawFeed_general chunks [] [] (by rfl)
  simpa using this

theorem emitLines_append (a b : List (List Char)) :
    emitLines (a ++ b) = emitLines a ++ emitLines b := by
  simp [emitLines, List.filter_append]

theorem rawFeed_acc (chunks : List (List Char)) (L : List (List Char))
    (C : List Char) :
    chunks.foldl rawFeed (L, C) =
      (L ++ (chunks.foldl rawFeed ([], C)).1, (chunks.foldl rawFeed ([], C)).2) := by
  induction chunks generalizing L C with
  | nil => simp [List.foldl]
  | cons c cs ih =>
      simp only [List.foldl, rawFeed, List.nil_append]
      rw [ih (L ++ (splitCL (C ++ c)).1) (splitCL (C ++ c)).2,
        ih ((splitCL (C ++ c)).1) (splitCL (C ++ c)).2]
      simp

theorem sseFeed_general (chunks : List (List Char)) (L : List (List Char))
    (C : List Char) :
    chunks.foldl sseFeed (L, C) =
      (L ++ emitLines ((chunks.foldl rawFeed ([], C)).1),
        (chunks.foldl rawFeed ([], C)).2) := by
  induction chunks generalizing L C with
  | nil => simp [List.foldl, emitLines]
  | cons c cs ih =>
      simp only [List.foldl, sseFeed, rawFeed, List.nil_append]
      rw [ih, rawFeed_acc cs ((splitCL (C ++ c)).1) (splitCL (C ++ c)).2,
        emitLines_append]
      simp

/-- The emitted payloads plus the flush are the trimmed, non-blank
segments of the full input (all segments, trailing one included). -/
theorem reframeLines_eq (chunks : List (List Char)) :
    reframeLines chunks = emitLines (splitRN chunks.flatten) := by
  unfold reframeLines
  rw [sseFeed_general chunks [] [], rawFold_eq]
  simp only [splitRN, emitLines_append, List.nil_append]
  congr 1
  simp only [emitLines, List.map, List.filter, sseFlush]
  cases h : (jsTrim (splitCL chunks.flatten).2).isEmpty <;> simp [h]

/-! ### The SSE session event machine

One inbound streaming session after the SSE headers and the anti-buffer
preamble have been written: the state carries the heartbeat interval
handle (`hbArmed`), whether `res.end()` has completed (`resEnded`),
whether the upstream body was destroyed, the reassembly carry, the
client-visible frame writes, and counters for the teardown calls
(`clearInterval`, `ldRes.body.destroy`, `res.end`).  Events are the
Node callbacks: upstream `data`, the 1-second heartbeat tick, upstream
`end`, upstream `error`, and the inbound `close`/`aborted` handler. -/

/-- Hex digit used by the JSON string escaper below. -/
def hexDigit (n : Nat) : Char :=
  if n < 10 then Char.ofNat (48 + n) else Char.ofNat (87 + n)

/-- JSON.stringify escaping of one character. -/
def jsonEscapeChar (c : Char) : List Char :=
  if c = '"' then ['\\', '"']
  else if c = '\\' then ['\\', '\\']
  else if c = '\n' then ['\\', 'n']
  else if c = '\r' then ['\\', 'r']
  else if c = '\t' then ['\\', 't']
  else if c = '\x08' then ['\\', 'b']
  else if c = '\x0c' then ['\\', 'f']
  else if c.toNat < 32 then
    ['\\', 'u', '0', '0', hexDigit (c.toNat / 16), hexDigit (c.toNat % 16)]
  else [c]

/-- JSON.stringify escaping of a string body. -/
def jsonEscape (l : List Char) : List Char := (l.map jsonEscapeChar).flatten

/-- Bytes of the `event: error` frame of the GET route when upstream is
not ok: `event: error\ndata: ${JSON.stringify({status, body})}\n\n`. -/
def errEventBytes (status : Nat) (body : List Char) : List Char :=
  "event: error\ndata: \x7b\"status\":".data ++ (Nat.repr status).data ++
    ",\"body\":\"".data ++ jsonEscape body ++ "\"\x7d\n\n".data

/-- One `res.write` call of the streaming loop, as a whole frame
(JavaScript callbacks run to completion, so a write is never
interleaved with another write). -/
inductive Frame
  | chunk (bytes : List Char)
  | data (line : List Char)
  | hb
  | done
  | err (msg : List Char)
  | errEvent (status : Nat) (body : List Char)
  deriving DecidableEq, Repr

/-- The raw bytes each frame puts on the wire. -/
def Frame.bytes : Frame → List Char
  | .chunk b => b
  | .data l => "data: ".data ++ l ++ "\n\n".data
  | .hb => ":hb\n\n".data
  | .done => ":done\n\n".data
  | .err m => ":error ".data ++ m ++ "\n\n".data
  | .errEvent st b => errEventBytes st b

/-- Heartbeat comment frame recogniser. -/
def Frame.isHb : Frame → Bool
  | .hb => true
  | _ => false

/-- Streaming mode of a session: upstream content-type containing
`text/event-stream` is passed through verbatim; anything else is
re-framed line by line. -/
inductive Mode
  | passThrough
  | reframe
  deriving DecidableEq, Repr

/-- Session state after headers and preamble. -/
structure St where
  hbArmed : Bool
  resEnded : Bool
  bodyDestroyed : Bool
  carry : List Char
  writes : List Frame
  clearCalls : Nat
  destroyCalls : Nat
  endCalls : Nat
  deriving DecidableEq, Repr

/-- State right after the preamble: heartbeat armed, nothing ended. -/
def openSt : St :=
  { hbArmed := true, resEnded := false, bodyDestroyed := false,
    carry := [], writes := [], clearCalls := 0, destroyCalls := 0,
    endCalls := 0 }

/-- `res.write` of a list of frames: bytes reach the client only while
the response has not been ended (a write after `end` errors the stream
asynchronously and sends nothing). -/
def pushW (s : St) (fs : List Frame) : St :=
  if s.resEnded then s else { s with writes := s.writes ++ fs }

/-- Node callbacks that can fire on one session. -/
inductive Ev
  | data (chunk : List Char)
  | tick
  | upEnd
  | upErr (msg : List Char)
  | clientClose
  deriving DecidableEq, Repr

/-- Termination triggers (upstream end, upstream error, client
close/abort). -/
def Ev.isTerm : Ev → Bool
  | .upEnd => true
  | .upErr _ => true
  | .clientClose => true
  | _ => false

/-- Data-flow events (upstream data, heartbeat tick). -/
def Ev.isFlow : Ev → Bool
  | .data _ => true
  | .tick => true
  | _ => false

/-- The chunk carried by a `data` event. -/
def Ev.chunkOf : Ev → Option (List Char)
  | .data c => some c
  | _ => none

/-- One callback firing.  Upstream `data`/`end`/`error` handlers never
fire once the upstream body has been destroyed; the heartbeat callback
never fires once the interval is cleared.  The handler bodies themselves
are unguarded, exactly as in the source. -/
def step (m : Mode) (s : St) : Ev → St
  | .data c =>
      if s.bodyDestroyed then s
      else
        match m with
        | .passThrough => pushW s [.chunk c]
        | .reframe =>
            let r := splitCL (s.carry ++ c)
            { pushW s ((emitLines r.1).map Frame.data) with carry := r.2 }
  | .tick => if s.hbArmed then pushW s [.hb] else s
  | .upEnd =>
      if s.bodyDestroyed then s
      else
        let s1 := { s with clearCalls := s.clearCalls + 1, hbArmed := false }
        let s2 :=
          match m with
          | .passThrough => pushW s1 [.done]
          | .reframe =>
              pushW s1 ((sseFlush s1.carry).map Frame.data ++ [Frame.done])
        { s2 with resEnded := true, endCalls := s2.endCalls + 1 }
  | .upErr msg =>
      if s.bodyDestroyed then s
      else
        let s1 := { s with clearCalls := s.clearCalls + 1, hbArmed := false }
        let s2 := pushW s1 [.err msg]
        { s2 with resEnded := true, endCalls := s2.endCalls + 1 }
  | .clientClose =>
      { s with
        hbArmed := false
        clearCalls := s.clearCalls + 1
        bodyDestroyed := true
        destroyCalls := s.destroyCalls + 1
        resEnded := true
        endCalls := s.endCalls + 1 }

/-- A session run: fold the callbacks over the state. -/
def run (m : Mode) (s : St) (evs : List Ev) : St := evs.foldl (step m) s

/-- The `!up.ok` branch of the GET route after the preamble: write an
`event: error` frame with the status and the first 300 characters of
the upstream body, then `res.end()` — and, unlike every other
termination path, no `clearInterval(hb)`. -/
def notOkBranch (status : Nat) (bodyText : List Char) (s : St) : St :=
  let s1 := pushW s [.errEvent status (bodyText.take 300)]
  { s1 with resEnded := true, endCalls := s1.endCalls + 1 }

/-! ### Upstream responses and route-level behaviour -/

/-- The metadata and buffered body text of the upstream `fetch`
response. -/
structure UpResp where
  status : Nat
  contentType : String
  bodyText : String
  deriving DecidableEq, Repr

/-- node-fetch `res.ok`: status in the 2xx range. -/
def UpResp.ok (r : UpResp) : Bool := 200 ≤ r.status && r.status < 300

/-- Substring occurrence at the head of a character list. -/
def headMatches : List Char → List Char → Bool
  | _, [] => true
  | [], _ :: _ => false
  | h :: hs, n :: ns => h == n && headMatches hs ns

/-- JS `hay.includes(needle)` on character lists. -/
def containsSub (hay needle : List Char) : Bool :=
  match hay with
  | [] => needle.isEmpty
  | _ :: t => headMatches hay needle || containsSub t needle

/-- `ct.includes("text/event-stream")` selects pass-through; anything
else is re-framed. -/
def upstreamMode (up : UpResp) : Mode :=
  if containsSub up.contentType.data "text/event-stream".data then
    .passThrough
  else .reframe

/-- The anti-buffer padding line `:${" ".repeat(2048)}\n`. -/
def preamblePad : List Char := ':' :: (List.replicate 2048 ' ' ++ ['\n'])

/-- The three writes after `flushHeaders`: padding comment, retry
directive, ok comment. -/
def preambleWrites : List (List Char) :=
  [preamblePad, "retry: 1000\n".data, ":ok\n\n".data]

/-- Outcome of `POST /assistant`: either the upstream error is forwarded
verbatim as JSON (no SSE headers ever sent), or the SSE stream is
opened: preamble first, then the pass-through session frames. -/
inductive PostOutcome
  | jsonError (status : Nat) (contentType : String) (body : String)
  | sse (writes : List (List Char))
  deriving DecidableEq, Repr

/-- `POST /assistant` as a function of the upstream response and the
subsequent callback events. -/
def postAssistant (up : UpResp) (evs : List Ev) : PostOutcome :=
  if !up.ok then .jsonError up.status "application/json" up.bodyText
  else
    .sse (preambleWrites ++ ((run .passThrough openSt evs).writes.map Frame.bytes))

/-! ### GET /assistant-stream pre-flight and trace -/

/-- The parsed `q` payload, reduced to the field the route examines. -/
structure Payload where
  assistantId : Option String
  deriving DecidableEq, Repr

/-- The payload `JSON.parse("\x7b\x7d")` produces. -/
def Payload.emptyP : Payload := ⟨none⟩

/-- `JSON.parse(req.query.q || "\x7b\x7d")` inside `try/catch`: an absent
or falsy `q` parses the literal empty object; a parse failure leaves the
initial `\x7b\x7d` value in place. -/
def qPayload (parse : String → Option Payload) (q : Option String) : Payload :=
  match q with
  | none => Payload.emptyP
  | some s => if s = "" then Payload.emptyP else (parse s).getD Payload.emptyP

/-- Hex-digit class of the UUID regex (`[0-9a-fA-F]`). -/
def isHexDigit (c : Char) : Bool :=
  c.isDigit || ('a' ≤ c && c ≤ 'f') || ('A' ≤ c && c ≤ 'F')

/-- Consume exactly `n` hex digits, returning the remainder. -/
def takeHex : Nat → List Char → Option (List Char)
  | 0, l => some l
  | _ + 1, [] => none
  | n + 1, c :: l => if isHexDigit c then takeHex n l else none

/-- Variant character class `[89abAB]`. -/
def isVariantChar (w : Char) : Bool :=
  w = '8' || w = '9' || w = 'a' || w = 'b' || w = 'A' || w = 'B'

/-- Match `[0-9a-fA-F]{8}-[0-9a-fA-F]{4}-[1-5][0-9a-fA-F]{3}-` followed
by `[89abAB][0-9a-fA-F]{3}-[0-9a-fA-F]{12}` against the whole list. -/
def matchUUIDBody (l : List Char) : Bool :=
  match takeHex 8 l with
  | none => false
  | some l1 =>
    match l1 with
    | '-' :: l2 =>
      match takeHex 4 l2 with
      | none => false
      | some l3 =>
        match l3 with
        | '-' :: v :: l4 =>
          if '1' ≤ v && v ≤ '5' then
            match takeHex 3 l4 with
            | none => false
            | some l5 =>
              match l5 with
              | '-' :: w :: l6 =>
                if isVariantChar w then
                  match takeHex 3 l6 with
                  | none => false
                  | some l7 =>
                    match l7 with
                    | '-' :: l8 => takeHex 12 l8 == some []
                    | _ => false
                else false
              | _ => false
          else false
        | _ => false
    | _ => false

/-- The route's `UUID_RE.test`: the regex
`^(?:urn:uuid:)?<uuid-body>$`; on a string that starts with the literal
`urn:uuid:` the engine also backtracks to matching the body at the
start. -/
def isUUID (s : String) : Bool :=
  match s.data with
  | 'u' :: 'r' :: 'n' :: ':' :: 'u' :: 'u' :: 'i' :: 'd' :: ':' :: rest =>
      matchUUIDBody rest || matchUUIDBody s.data
  | l => matchUUIDBody l

/-- The guard `!body.assistantId || !UUID_RE.test(body.assistantId)`,
negated: a truthy assistantId that matches the UUID pattern. -/
def getValid (p : Payload) : Bool :=
  match p.assistantId with
  | none => false
  | some a => a != "" && isUUID a

/-- Serialized body of `res.status(400).json(...)` on pre-flight
failure. -/
def invalidAssistantBody : String :=
  "\x7b\"error\":\"Invalid assistantId: must be UUID\"\x7d"

/-- Pre-flight decision of the GET route: reject with 400 before any
header or upstream call, or proceed to the SSE stream. -/
inductive GetDecision
  | reject (status : Nat) (jsonBody : String)
  | proceed (p : Payload)
  deriving DecidableEq, Repr

/-- Validation of the parsed payload, before SSE headers and before the
upstream fetch. -/
def getPreflight (parse : String → Option Payload) (q : Option String) :
    GetDecision :=
  let body := qPayload parse q
  if getValid body then .proceed body else .reject 400 invalidAssistantBody

/-- Full observable outcome of one `GET /assistant-stream` request. -/
structure GetOutcome where
  decision : GetDecision
  upstreamCalled : Bool
  sseWrites : List (List Char)
  finalState : Option St
  deriving Repr

/-- `GET /assistant-stream` as a function of the parse result, the
upstream response and the subsequent callback events.  On the proceed
path the SSE headers and the preamble are written before the upstream
call returns, so the preamble prefix does not depend on `up`. -/
def getAssistantStream (parse : String → Option Payload) (q : Option String)
    (up : UpResp) (evs : List Ev) : GetOutcome :=
  match getPreflight parse q with
  | .reject st b =>
      { decision := .reject st b, upstreamCalled := false, sseWrites := [],
        finalState := none }
  | .proceed p =>
      if !up.ok then
        let s := notOkBranch up.status up.bodyText.data openSt
        { decision := .proceed p, upstreamCalled := true,
          sseWrites := preambleWrites ++ s.writes.map Frame.bytes,
          finalState := some s }
      else
        let s := run (upstreamMode up) openSt evs
        { decision := .proceed p, upstreamCalled := true,
          sseWrites := preambleWrites ++ s.writes.map Frame.bytes,
          finalState := some s }

/-! ### Outbound request construction -/

/-- An inbound JSON body: its `stream` member (absent, `true`, or
`false`) and everything else, passed through by the object spread. -/
structure InBody (α : Type) where
  stream : Option Bool
  rest : α
  deriving DecidableEq, Repr

/-- The outbound upstream POST. -/
structure Outbound (α : Type) where
  url : String
  authorization : String
  contentType : String
  accept : String
  stream : Bool
  rest : α
  deriving DecidableEq, Repr

/-- `POST /assistant` outbound call: `{ ...req.body, stream: true }`
with bearer auth, JSON content type, SSE accept. -/
def assistantOutbound {α : Type} (key : String) (b : InBody α) : Outbound α :=
  { url := "https://api.langdock.com/assistant/v1/chat/completions"
    authorization := "Bearer " ++ key
    contentType := "application/json"
    accept := "text/event-stream"
    stream := true
    rest := b.rest }

/-- `POST /chat/completions` outbound call:
`{ ...req.body, stream: req.body.stream ?? true }`. -/
def chatCompletionsOutbound {α : Type} (key : String) (region : String)
    (b : InBody α) : Outbound α :=
  { url := "https://api.langdock.com/openai/" ++ region ++
      "/v1/chat/completions"
    authorization := "Bearer " ++ key
    contentType := "application/json"
    accept := if b.stream.getD true then "text/event-stream"
      else "application/json"
    stream := b.stream.getD true
    rest := b.rest }

/-- `GET /assistant-stream` outbound call: `body.stream = true` after
parsing. -/
def getStreamOutbound {α : Type} (key : String) (b : InBody α) : Outbound α :=
  { url := "https://api.langdock.com/assistant/v1/chat/completions"
    authorization := "Bearer " ++ key
    contentType := "application/json"
    accept := "text/event-stream"
    stream := true
    rest := b.rest }

/-! ### Claim theorems -/

/-- C1 counterexample: on the single-chunk input `a\n\nb\n` the code
emits `["a", "b"]` — the blank line is discarded — which differs from
the sequence of newline-delimited lines of the whole input with
whitespace trimmed, whether or not the trailing empty segment is
counted as a line. -/
theorem c1_counterexample :
    reframeLines ["a\n\nb\n".data] = ["a".data, "b".data] ∧
    reframeLines ["a\n\nb\n".data] ≠ (splitRN "a\n\nb\n".data).map jsTrim ∧
    reframeLines ["a\n\nb\n".data] ≠
      ((splitRN "a\n\nb\n".data).map jsTrim).dropLast := by
  refine ⟨by decide, by decide, by decide⟩

/-- C1 (amended): for every upstream byte sequence and every chunking of
it, the Line Reassembler of GET /assistant-stream plus the final flush
produce exactly the `\r?\n`-delimited segments of the whole input, each
whitespace-trimmed, with segments that are empty after trimming
discarded; in particular the single-chunk body `0:foo\n1:bar\n` yields
the frames `data: 0:foo`, `data: 1:bar`, then `:done`. -/
theorem c1_reframe_amended (chunks : List (List Char)) :
    reframeLines chunks = emitLines (splitRN chunks.flatten) ∧
    (run .reframe openSt [.data "0:foo\n1:bar\n".data, .upEnd]).writes =
      [.data "0:foo".data, .data "1:bar".data, .done] :=
  ⟨reframeLines_eq chunks, by decide⟩

/-- C3: when upstream answers non-2xx, POST /assistant forwards the
upstream status and body verbatim as `application/json` and never opens
an SSE stream; on the GET variant the preamble bytes are on the wire
before the upstream status is even available (for every upstream
response the trace starts with the preamble), so no GET request has a
non-success status before bytes were streamed. -/
theorem c3_error_forward (up : UpResp) (evs : List Ev) (h : up.ok = false) :
    postAssistant up evs =
      .jsonError up.status "application/json" up.bodyText ∧
    ∀ (parse : String → Option Payload) (q : Option String) (p : Payload),
      getPreflight parse q = .proceed p →
      (getAssistantStream parse q up evs).sseWrites.take 3 = preambleWrites ∧
      preambleWrites ≠ [] := by
  constructor
  · simp [postAssistant, h]
  · intro parse q p hp
    constructor
    · simp only [getAssistantStream, hp, h, Bool.not_false, if_pos]
      rw [show (3 : Nat) = preambleWrites.length from rfl]
      exact List.take_left ..
    · simp [preambleWrites]

/-- C3 witness: an upstream 401 with body `{"error":"bad key"}` is
forwarded as HTTP 401 with that exact JSON body. -/
theorem c3_witness :
    (UpResp.mk 401 "application/json" "\x7b\"error\":\"bad key\"\x7d").ok
      = false ∧
    postAssistant ⟨401, "application/json", "\x7b\"error\":\"bad key\"\x7d"⟩
        [] =
      .jsonError 401 "application/json" "\x7b\"error\":\"bad key\"\x7d" :=
  ⟨by decide, (c3_error_forward _ [] (by decide)).1⟩

/-- C7: a GET /assistant-stream payload whose assistantId is missing or
does not match the UUID pattern is rejected synchronously with HTTP 400
and the exact JSON error body, and the upstream is never called. -/
theorem c7_invalid_assistant (parse : String → Option Payload)
    (q : Option String)
    (h : ∀ a, (qPayload parse q).assistantId = some a → isUUID a = false) :
    getPreflight parse q = .reject 400 invalidAssistantBody ∧
    ∀ up evs, (getAssistantStream parse q up evs).upstreamCalled = false ∧
      (getAssistantStream parse q up evs).sseWrites = [] := by
  have hv : getValid (qPayload parse q) = false := by
    unfold getValid
    cases ha : (qPayload parse q).assistantId with
    | none => rfl
    | some a => simp [h a ha]
  refine ⟨by simp [getPreflight, hv], ?_⟩
  intro up evs
  constructor <;> simp [getAssistantStream, getPreflight, hv]

/-- C7 witness: assistantId `not-a-uuid` yields the 400 rejection. -/
theorem c7_witness :
    isUUID "not-a-uuid" = false ∧
    getPreflight (fun _ => some ⟨some "not-a-uuid"⟩) (some "x") =
      .reject 400 invalidAssistantBody := by
  refine ⟨by decide, (c7_invalid_assistant _ _ ?_).1⟩
  intro a ha
  have hq : qPayload (fun _ => some ⟨some "not-a-uuid"⟩) (some "x") =
      ⟨some "not-a-uuid"⟩ := by decide
  rw [hq] at ha
  injection ha with ha2
  rw [← ha2]
  decide

/-- C8 counterexample: a caller-supplied `stream: false` on
POST /assistant is not preserved — the body construction
`{ ...req.body, stream: true }` forces it back to true. -/
theorem c8_counterexample :
    (assistantOutbound "key" (⟨some false, ()⟩ : InBody Unit)).stream
      = true ∧
    (assistantOutbound "key" (⟨some false, ()⟩ : InBody Unit)).stream
      ≠ false :=
  ⟨rfl, by decide⟩

/-- C8 (amended): every outbound call carries
`Authorization: Bearer <key>` and `Content-Type: application/json` and
passes the rest of the caller payload through; POST /chat/completions
forces the stream flag to true unless the caller explicitly disabled it
(`stream ?? true`, so a caller `stream: false` is preserved), while
POST /assistant and GET /assistant-stream force `stream: true`
unconditionally, overriding a caller-supplied `false`. -/
theorem c8_stream_flag_amended {α : Type} (key region : String)
    (b : InBody α) :
    (assistantOutbound key b).stream = true ∧
    (chatCompletionsOutbound key region b).stream = b.stream.getD true ∧
    (getStreamOutbound key b).stream = true ∧
    (assistantOutbound key b).authorization = "Bearer " ++ key ∧
    (assistantOutbound key b).contentType = "application/json" ∧
    (chatCompletionsOutbound key region b).authorization =
      "Bearer " ++ key ∧
    (chatCompletionsOutbound key region b).contentType =
      "application/json" ∧
    (assistantOutbound key b).rest = b.rest ∧
    (chatCompletionsOutbound key region b).rest = b.rest :=
  ⟨rfl, rfl, rfl, rfl, rfl, rfl, rfl, rfl, rfl⟩

/-- C10: an absent or unparseable `q` query parameter is silently
swallowed, the payload becomes the empty object, the request is
rejected with the 400 Invalid-assistantId JSON response, and no
upstream call is made. -/
theorem c10_parse_swallowed (parse : String → Option Payload)
    (q : Option String)
    (h : q = none ∨ ∃ s, q = some s ∧ parse s = none) :
    qPayload parse q = Payload.emptyP ∧
    getPreflight parse q = .reject 400 invalidAssistantBody ∧
    ∀ up evs, (getAssistantStream parse q up evs).upstreamCalled = false := by
  have hq : qPayload parse q = Payload.emptyP := by
    rcases h with h | ⟨s, rfl, hp⟩
    · rw [h]; rfl
    · by_cases hs : s = "" <;> simp [qPayload, hs, hp]
  have hv : getValid (qPayload parse q) = false := by rw [hq]; rfl
  exact ⟨hq, by simp [getPreflight, hv],
    fun up evs => by simp [getAssistantStream, getPreflight, hv]⟩

/-- C10 witness: `q = "not json"` with a failing parse yields the empty
payload and the 400 rejection. -/
theorem c10_witness :
    qPayload (fun _ => none) (some "not json") = Payload.emptyP ∧
    getPreflight (fun _ => none) (some "not json") =
      .reject 400 invalidAssistantBody :=
  ⟨(c10_parse_swallowed _ _ (Or.inr ⟨_, rfl, rfl⟩)).1,
    (c10_parse_swallowed _ _ (Or.inr ⟨_, rfl, rfl⟩)).2.1⟩

/-! ### Lifecycle lemmas for C2, C4, C5 -/

/-- Once the session is closed (response ended, heartbeat disarmed), no
callback writes any further bytes to the client or rearms anything; the
unguarded teardown calls may still increment their counters. -/
theorem step_closed (m : Mode) (s : St) (e : Ev) (h1 : s.resEnded = true)
    (h2 : s.hbArmed = false) :
    (step m s e).writes = s.writes ∧ (step m s e).resEnded = true ∧
    (step m s e).hbArmed = false ∧
    s.clearCalls ≤ (step m s e).clearCalls ∧
    s.endCalls ≤ (step m s e).endCalls := by
  cases e with
  | data c =>
      cases m <;> by_cases hd : s.bodyDestroyed <;>
        simp [step, pushW, h1, h2, hd]
  | tick => simp [step, h2, h1]
  | upEnd =>
      cases m <;> by_cases hd : s.bodyDestroyed <;>
        simp [step, pushW, h1, h2, hd, Nat.le_add_right]
  | upErr msg =>
      by_cases hd : s.bodyDestroyed <;>
        simp [step, pushW, h1, h2, hd, Nat.le_add_right]
  | clientClose => simp [step, h1, h2, pushW, Nat.le_add_right]

/-- `step_closed`, folded over any further event sequence. -/
theorem run_closed (m : Mode) (evs : List Ev) (s : St)
    (h1 : s.resEnded = true) (h2 : s.hbArmed = false) :
    (run m s evs).writes = s.writes ∧ (run m s evs).resEnded = true ∧
    (run m s evs).hbArmed = false ∧
    s.clearCalls ≤ (run m s evs).clearCalls ∧
    s.endCalls ≤ (run m s evs).endCalls := by
  induction evs generalizing s with
  | nil => exact ⟨rfl, h1, h2, le_refl _, le_refl _⟩
  | cons e es ih =>
      have hs := step_closed m s e h1 h2
      have ihs := ih (step m s e) hs.2.1 hs.2.2.1
      have hrun : run m s (e :: es) = run m (step m s e) es := rfl
      rw [hrun]
      exact ⟨ihs.1.trans hs.1, ihs.2.1, ihs.2.2.1,
        hs.2.2.2.1.trans ihs.2.2.2.1, hs.2.2.2.2.trans ihs.2.2.2.2⟩

/-- The first termination trigger from the open state disarms the
heartbeat, ends the response, and runs `clearInterval` and `res.end`
exactly once. -/
theorem step_term_open (m : Mode) (t : Ev) (ht : t.isTerm = true) :
    (step m openSt t).resEnded = true ∧ (step m openSt t).hbArmed = false ∧
    (step m openSt t).clearCalls = 1 ∧ (step m openSt t).endCalls = 1 := by
  cases t with
  | data c => simp [Ev.isTerm] at ht
  | tick => simp [Ev.isTerm] at ht
  | upEnd => cases m <;> simp [step, openSt, pushW, sseFlush, jsTrim]
  | upErr msg => simp [step, openSt, pushW]
  | clientClose => simp [step, openSt]

/-- C2 counterexample: with the trigger ordering upstream-end followed
by client-close, `clearInterval` and `res.end` each execute twice — the
handlers are unguarded, so the teardown calls are not exactly-once. -/
theorem c2_counterexample :
    (run .passThrough openSt [Ev.upEnd, Ev.clientClose]).clearCalls = 2 ∧
    (run .passThrough openSt [Ev.upEnd, Ev.clientClose]).endCalls = 2 ∧
    (run .passThrough openSt [Ev.upEnd, Ev.clientClose]).destroyCalls = 1 := by
  refine ⟨by decide, by decide, by decide⟩

/-- C2 (amended): there is no terminal-state flag; each termination
trigger unconditionally re-runs its teardown calls, so with several
triggers `clearInterval` and `res.end` execute once per trigger rather
than exactly once.  The teardown is idempotent only at the observable
level: after the first trigger the heartbeat is disarmed and the
response is ended, later triggers write nothing further to the client,
and each teardown call runs at least once. -/
theorem c2_teardown_amended (m : Mode) (t : Ev) (ts : List Ev)
    (ht : t.isTerm = true) (_hts : ∀ e ∈ ts, e.isTerm = true) :
    (run m openSt (t :: ts)).hbArmed = false ∧
    (run m openSt (t :: ts)).resEnded = true ∧
    (run m openSt (t :: ts)).writes = (step m openSt t).writes ∧
    1 ≤ (run m openSt (t :: ts)).clearCalls ∧
    1 ≤ (run m openSt (t :: ts)).endCalls := by
  have h0 := step_term_open m t ht
  have hr := run_closed m ts (step m openSt t) h0.1 h0.2.1
  have hrun : run m openSt (t :: ts) = run m (step m openSt t) ts := rfl
  rw [hrun]
  exact ⟨hr.2.2.1, hr.2.1, hr.1, h0.2.2.1 ▸ hr.2.2.2.1,
    h0.2.2.2 ▸ hr.2.2.2.2⟩

/-- C2 witness: the amended statement at the concrete ordering
upstream-end then client-close. -/
theorem c2_witness :
    Ev.isTerm .upEnd = true ∧
    (run .passThrough openSt [Ev.upEnd, Ev.clientClose]).writes =
      (step .passThrough openSt Ev.upEnd).writes ∧
    (run .passThrough openSt [Ev.upEnd, Ev.clientClose]).resEnded = true := by
  have h := c2_teardown_amended .passThrough .upEnd [.clientClose]
    (by decide) (by intro e he; simp at he; rw [he]; rfl)
  exact ⟨by decide, h.2.2.1, h.2.1⟩

/-! ### Data-flow lemmas for C4 -/

/-- The data frames the reframe loop produces for a chunk sequence,
starting from a given carry. -/
def reframeEmit (carry : List Char) : List (List Char) → List Frame
  | [] => []
  | c :: cs =>
      let r := splitCL (carry ++ c)
      (emitLines r.1).map Frame.data ++ reframeEmit r.2 cs

/-- The chunks carried by the `data` events of a callback sequence, in
order. -/
def chunksOf (evs : List Ev) : List (List Char) := evs.filterMap Ev.chunkOf

/-- The data frames a session is expected to write for the given chunk
sequence: the chunks verbatim in pass-through mode, the reframed lines
in reframe mode. -/
def expectedData : Mode → List Char → List (List Char) → List Frame
  | .passThrough, _, cs => cs.map Frame.chunk
  | .reframe, carry, cs => reframeEmit carry cs

theorem filter_data_map (p : List (List Char)) :
    (p.map Frame.data).filter (fun f => !f.isHb) = p.map Frame.data := by
  induction p with
  | nil => rfl
  | cons x xs ih => simp [List.filter, Frame.isHb, ih]

/-- During the open phase (no termination yet), erasing the heartbeat
frames from the write trace leaves exactly the expected data frames of
the chunks, in arrival order. -/
theorem run_flow (m : Mode) (evs : List Ev) (s : St)
    (hf : ∀ e ∈ evs, e.isFlow = true) (h1 : s.resEnded = false)
    (h2 : s.bodyDestroyed = false) :
    (run m s evs).writes.filter (fun f => !f.isHb) =
      s.writes.filter (fun f => !f.isHb) ++
        expectedData m s.carry (chunksOf evs) := by
  induction evs generalizing s with
  | nil => cases m <;> simp [run, expectedData, chunksOf, reframeEmit]
  | cons e es ih =>
      have hf1 : e.isFlow = true := hf e (List.mem_cons_self e es)
      have hfs : ∀ x ∈ es, x.isFlow = true := fun x hx =>
        hf x (List.mem_cons_of_mem e hx)
      have hrun : run m s (e :: es) = run m (step m s e) es := rfl
      cases e with
      | data c =>
          cases m with
          | passThrough =>
              have hstep : step .passThrough s (.data c) =
                  { s with writes := s.writes ++ [.chunk c] } := by
                simp [step, pushW, h1, h2]
              rw [hrun, hstep,
                ih ({ s with writes := s.writes ++ [Frame.chunk c] }) hfs
                  h1 h2]
              simp [chunksOf, Ev.chunkOf, expectedData, List.filter_append,
                List.filter, Frame.isHb]
          | reframe =>
              have hstep : step .reframe s (.data c) =
                  { s with
                    writes := s.writes ++
                      ((emitLines (splitCL (s.carry ++ c)).1).map Frame.data)
                    carry := (splitCL (s.carry ++ c)).2 } := by
                simp [step, pushW, h1, h2]
              rw [hrun, hstep,
                ih ({ s with
                  writes := s.writes ++
                    ((emitLines (splitCL (s.carry ++ c)).1).map Frame.data)
                  carry := (splitCL (s.carry ++ c)).2 }) hfs h1 h2]
              simp only [chunksOf, Ev.chunkOf, List.filterMap_cons,
                expectedData, reframeEmit, List.filter_append,
                filter_data_map, List.append_assoc]
      | tick =>
          by_cases hb : s.hbArmed
          · have hstep : step m s .tick =
                { s with writes := s.writes ++ [.hb] } := by
              simp [step, pushW, h1, hb]
            rw [hrun, hstep,
              ih ({ s with writes := s.writes ++ [Frame.hb] }) hfs h1 h2]
            simp [chunksOf, Ev.chunkOf, List.filter_append, List.filter,
              Frame.isHb]
          · have hstep : step m s .tick = s := by simp [step, hb]
            rw [hrun, hstep, ih _ hfs h1 h2]
            simp [chunksOf, Ev.chunkOf]
      | upEnd => simp [Ev.isFlow] at hf1
      | upErr msg => simp [Ev.isFlow] at hf1
      | clientClose => simp [Ev.isFlow] at hf1

/-- C4: in both modes, the data frames written to the client appear in
exactly the order of the upstream chunks/lines that produced them
(erasing heartbeat frames from the trace leaves precisely the expected
data frames), and a heartbeat write is always the whole `:hb` comment
frame — each callback writes whole frames, so a heartbeat never lands
inside a data frame. -/
theorem c4_frame_ordering (m : Mode) (evs : List Ev)
    (hf : ∀ e ∈ evs, e.isFlow = true) :
    (run m openSt evs).writes.filter (fun f => !f.isHb) =
      expectedData m [] (chunksOf evs) ∧
    ∀ f ∈ (run m openSt evs).writes, f.isHb = true → f = Frame.hb := by
  constructor
  · have h := run_flow m evs openSt hf rfl rfl
    simpa [openSt] using h
  · intro f hm hb
    cases f <;> simp_all [Frame.isHb]

/-- C4 witness: a reframe session with a heartbeat between two data
events; chunk boundaries fall inside a line. -/
theorem c4_witness :
    (∀ e ∈ [Ev.data "a\nb".data, Ev.tick, Ev.data "c\n".data],
      e.isFlow = true) ∧
    (run .reframe openSt
        [Ev.data "a\nb".data, Ev.tick, Ev.data "c\n".data]).writes.filter
        (fun f => !f.isHb) =
      expectedData .reframe []
        (chunksOf [Ev.data "a\nb".data, Ev.tick, Ev.data "c\n".data]) :=
  ⟨by decide, (c4_frame_ordering .reframe _ (by decide)).1⟩

/-- C5 (code bug evidence): the `!up.ok` branch of GET /assistant-stream
ends the response without ever calling `clearInterval(hb)` — the
heartbeat interval stays armed with zero clear calls, unlike the
close/end/error handlers, each of which disarms it and clears exactly
once.  Subsequent ticks write nothing client-visible only because the
response is already ended. -/
theorem c5_heartbeat_leak (m : Mode) (status : Nat) (bt msg : List Char) :
    (notOkBranch status bt openSt).hbArmed = true ∧
    (notOkBranch status bt openSt).clearCalls = 0 ∧
    (notOkBranch status bt openSt).resEnded = true ∧
    (step m (notOkBranch status bt openSt) .tick).writes =
      (notOkBranch status bt openSt).writes ∧
    (step m (notOkBranch status bt openSt) .tick).hbArmed = true ∧
    (step m openSt .clientClose).hbArmed = false ∧
    (step m openSt .upEnd).hbArmed = false ∧
    (step m openSt (.upErr msg)).hbArmed = false ∧
    (step m openSt .clientClose).clearCalls = 1 ∧
    (step m openSt .upEnd).clearCalls = 1 ∧
    (step m openSt (.upErr msg)).clearCalls = 1 := by
  cases m <;>
    simp [notOkBranch, step, pushW, openSt, sseFlush, jsTrim]

/-- C6: on both streaming routes, immediately after the headers the
trace is exactly the preamble — one comment line of 2050 bytes (at
least 2048), the `retry:` directive, the `:ok` comment — followed by
the session frames; no data or heartbeat frame precedes it. -/
theorem c6_preamble (up : UpResp) (evs : List Ev) (h : up.ok = true) :
    postAssistant up evs =
      .sse (preambleWrites ++
        ((run .passThrough openSt evs).writes.map Frame.bytes)) ∧
    preambleWrites = [preamblePad, "retry: 1000\n".data, ":ok\n\n".data] ∧
    preamblePad.length = 2050 ∧
    2048 ≤ preamblePad.length ∧
    preamblePad.head? = some ':' ∧
    ∀ (parse : String → Option Payload) (q : Option String) (p : Payload),
      getPreflight parse q = .proceed p →
      (getAssistantStream parse q up evs).sseWrites =
        preambleWrites ++
          ((run (upstreamMode up) openSt evs).writes.map Frame.bytes) := by
  have hlen : preamblePad.length = 2050 := by
    rw [show preamblePad = ':' :: (List.replicate 2048 ' ' ++ ['\n']) from
      rfl, List.length_cons, List.length_append, List.length_replicate]
    rfl
  refine ⟨by simp [postAssistant, h], rfl, hlen, by rw [hlen]; norm_num,
    rfl, ?_⟩
  intro parse q p hp
  simp [getAssistantStream, hp, h]

/-- C6 witness: a 200 upstream with no events yields exactly the
preamble. -/
theorem c6_witness :
    (UpResp.mk 200 "text/plain" "").ok = true ∧
    postAssistant ⟨200, "text/plain", ""⟩ [] =
      .sse (preambleWrites ++
        ((run .passThrough openSt []).writes.map Frame.bytes)) :=
  ⟨by decide, (c6_preamble _ [] (by decide)).1⟩

/-- C9: nothing is emitted before its delimiter arrives — after any
number of chunks the emitted raw segments are exactly the
delimiter-terminated segments of the bytes consumed so far, the carry
is the undelimited remainder and contains no newline, and the `end`
handler flushes a non-empty trimmed carry exactly once, before
`:done`. -/
theorem c9_delimiter_invariant (chunks : List (List Char)) :
    (∀ i, ((chunks.take i).foldl rawFeed ([], [])).1 =
      (splitCL (chunks.take i).flatten).1) ∧
    (chunks.foldl rawFeed ([], [])).2 = (splitCL chunks.flatten).2 ∧
    '\n' ∉ (chunks.foldl rawFeed ([], [])).2 ∧
    (∀ s : St, s.resEnded = false → s.bodyDestroyed = false →
      (step .reframe s .upEnd).writes =
        s.writes ++ ((sseFlush s.carry).map Frame.data ++ [Frame.done])) := by
  refine ⟨fun i => by rw [rawFold_eq], by rw [rawFold_eq], ?_, ?_⟩
  · rw [rawFold_eq]; exact splitCL_carry_no_newline _
  · intro s h1 h2
    simp [step, pushW, h1, h2]

/-- C9 witness: a chunk without a delimiter emits nothing (the bytes are
withheld in the carry), and a concrete open state with carry `" x "`
flushes exactly `data: x` then `:done` at upstream end. -/
theorem c9_witness :
    ((([ "ab".data, "c\nd".data ].take 1).foldl rawFeed ([], [])).1 =
      (splitCL ([ "ab".data, "c\nd".data ].take 1).flatten).1) ∧
    (step .reframe
        { hbArmed := true, resEnded := false, bodyDestroyed := false,
          carry := " x ".data, writes := [], clearCalls := 0,
          destroyCalls := 0, endCalls := 0 } .upEnd).writes =
      [] ++ ((sseFlush " x ".data).map Frame.data ++ [Frame.done]) ∧
    (([ "ab".data, "c\nd".data ].take 1).foldl rawFeed ([], [])).1 = [] ∧
    (sseFlush " x ".data).map Frame.data = [Frame.data "x".data] :=
  ⟨(c9_delimiter_invariant _).1 1,
    (c9_delimiter_invariant ["ab".data]).2.2.2 _ rfl rfl,
    by decide, by decide⟩

end LangdockProxy
